import Mathlib

/-!
Verification development for the google-maps-scraper repository
(`gmaps/entry.go`, `gmaps/emailjob.go`).

The Go code is shallowly embedded: JSON values decoded by
`encoding/json` into `[]any` become the inductive type `JVal`; the Go
functions `getNthElementAndCast`, `EntryFromJSON`,
`extractStreetAndNumber`, `docEmailExtractor`, `regexEmailExtractor`,
`extractSocialLinks`, `extractNIP`, `cleanNIP`,
`EmailExtractJob.Process` and `CEIDGExtractJob.Process` become Lean
functions of the same names (or `emailProcess` / `ceidgProcess` for the
methods).  External collaborators (the `emailaddress` library, the HTTP
transport, `godotenv`) are passed in as explicit parameters.  A Go
runtime panic (an out-of-range slice index) is modelled by `none` /
`DecodeOutcome.panic`.
-/

/-! ### Byte/character string primitives used by the Go code -/

/-- Does the first list start with the second one?  Models the test a Go
`strings.HasPrefix` / the CSS attribute selector `[href^='...']` perform. -/
def startsWithList : List Char → List Char → Bool
  | _, [] => true
  | [], _ :: _ => false
  | c :: cs, d :: ds => c == d && startsWithList cs ds

/-- Models Go `strings.Contains hay needle`: some contiguous run of `hay`
equals `needle`. -/
def containsList : List Char → List Char → Bool
  | [], needle => needle.isEmpty
  | hay@(_ :: t), needle => startsWithList hay needle || containsList t needle

/-- Go `strings.Contains` on `String`s. -/
def strContains (hay needle : String) : Bool :=
  containsList hay.data needle.data

/-- Go `strings.TrimPrefix s pre`: drop `pre` from the front of `s` when
present, otherwise return `s` unchanged. -/
def trimFront (s pre : String) : String :=
  if startsWithList s.data pre.data then String.mk (s.data.drop pre.data.length) else s

/-- The whitespace class trimmed by Go `strings.TrimSpace` (the ASCII and
Latin-1 part of `unicode.IsSpace`; wider Unicode spaces are irrelevant to
every input considered here). -/
def isGoSpace (c : Char) : Bool :=
  c == ' ' || c == '\t' || c == '\n' || c == '\x0b' || c == '\x0c' || c == '\r' ||
  c == '\x85' || c == '\xa0'

/-- Go `strings.TrimSpace`. -/
def trimSpaceGo (s : String) : String :=
  String.mk (((s.data.dropWhile isGoSpace).reverse.dropWhile isGoSpace).reverse)

/-! ### The decoded-JSON value model

`EntryFromJSON` runs `json.Unmarshal(raw, &jd)` with `jd : []any`.
`encoding/json` stores into an `any` exactly one of: `nil`, `bool`,
`float64`, `string`, `[]any`, `map[string]any`.  `JVal` has one
constructor per possible dynamic type.  The numeric payload of `num` is
irrelevant to the embedded code (only its dynamic type is ever
inspected), so it is carried as an `Int`. -/

inductive JVal where
  | null : JVal
  | bool : Bool → JVal
  | num : Int → JVal
  | str : String → JVal
  | arr : List JVal → JVal
  | obj : List (String × JVal) → JVal

/-- The Go type assertion `v.(string)`: succeeds exactly when the dynamic
type is `string`. -/
def castString : JVal → Option String
  | JVal.str s => some s
  | _ => none

/-- The Go type assertion `v.([]string)` applied to a value produced by
`json.Unmarshal` into `[]any`.  The dynamic type of such a value is one of
`nil`, `bool`, `float64`, `string`, `[]any`, `map[string]any` — a JSON
array of strings decodes as `[]any`, never as `[]string` — so the
assertion fails for every constructor. -/
def castStringList : JVal → Option (List String)
  | JVal.null => none
  | JVal.bool _ => none
  | JVal.num _ => none
  | JVal.str _ => none
  | JVal.arr _ => none
  | JVal.obj _ => none

/-- `getNthElementAndCast[T](arr, indexes...)` from `gmaps/entry.go`.

The outer `Option` models Go control flow: `some x` is a normal return of
`x`, `none` is a runtime panic.  Mirroring the source:
* no indexes: return the zero value (`defaultVal`);
* more than one index left (the `for len(indexes) > 1` loop): an
  out-of-range index, a `nil` element, or an element whose dynamic type
  is not `[]any` each return the zero value;
* exactly one index left: `len(arr) == 0` returns the zero value, then
  `arr[indexes[0]]` is read **without a bound check** — when
  `indexes[0] >= len(arr)` and `arr` is non-empty this is a Go
  index-out-of-range panic, modelled as `none`; otherwise the `.(T)`
  assertion yields the element or the zero value. -/
def getNthElementAndCast {T : Type} (cast : JVal → Option T) (defaultVal : T) :
    List JVal → List Nat → Option T
  | _, [] => some defaultVal
  | arr, [i] =>
    if arr.isEmpty then some defaultVal
    else
      match arr.get? i with
      | none => none
      | some v => some ((cast v).getD defaultVal)
  | arr, i :: rest =>
    match arr.get? i with
    | none => some defaultVal
    | some JVal.null => some defaultVal
    | some (JVal.arr next) => getNthElementAndCast cast defaultVal next rest
    | some _ => some defaultVal

/-! ### The record data model (`Entry`, `Address` from `gmaps/entry.go`) -/

structure Address where
  Street : String
  Number : String
deriving Repr, DecidableEq

/-- `Entry.SocialLinks` is a Go `map[string]string`.  Every write in the
repository stores one of the literal keys `"facebook"`, `"instagram"`,
`"twitter"` and every read looks up one of them, so the map is modelled
as a fixed record of three optional entries (`none` = key absent). -/
structure SocialMap where
  facebook : Option String
  instagram : Option String
  twitter : Option String
deriving Repr, DecidableEq

structure Entry where
  ID : String
  Link : String
  Title : String
  Address : Address
  City : String
  WebSite : String
  Phone : String
  Emails : List String
  SocialLinks : SocialMap
  NIP : String
  CEIDG : String
deriving Repr, DecidableEq

/-- `entry.SocialLinks["facebook"] = href` guarded by
`strings.Contains(href, "facebook")`. -/
def setFb (m : SocialMap) (href : String) : SocialMap :=
  if strContains href "facebook" then { m with facebook := some href } else m

/-- `entry.SocialLinks["instagram"] = href` guarded by
`strings.Contains(href, "instagram")`. -/
def setIg (m : SocialMap) (href : String) : SocialMap :=
  if strContains href "instagram" then { m with instagram := some href } else m

/-- `entry.SocialLinks["twitter"] = href` guarded by
`strings.Contains(href, "twitter")`. -/
def setTw (m : SocialMap) (href : String) : SocialMap :=
  if strContains href "twitter" then { m with twitter := some href } else m

/-! ### The address pattern of `extractStreetAndNumber`

Go compiles `^(.*?),\s*(.*?)(?:, \d{2}-\d{3})?(?:, .+)?$` and calls
`FindStringSubmatch`.  The pattern is embedded as a direct
leftmost-first matcher over `List Char`:

* `.` matches any character except `'\n'` (no `s` flag);
* the two `(.*?)` groups are lazy: shortest alternative first;
* `\s*` is RE2's `[\t\n\x0c\r ]`, matched greedily.  Taking the maximal
  run is exact here: any position strictly inside the whitespace run
  starts with a whitespace character, so neither `(?:, ...)` optional nor
  `$` can match there, and group 2 can scan forward through the unconsumed
  whitespace itself unless a `'\n'` intervenes — in which case positions
  beyond it are unreachable with a shorter run as well;
* the two `(?:...)?` groups contain no captures, so the greedy-first
  order only affects success, which the boolean disjunction captures. -/

/-- The RE2 character class `\s` = `[\t\n\x0c\r ]`. -/
def isReSpace (c : Char) : Bool :=
  c == '\t' || c == '\n' || c == '\x0c' || c == '\r' || c == ' '

/-- Does `(?:, .+)$` match the whole list (the second optional suffix,
taken)?  `.+` must run to the end of the text, so the remainder must be a
non-empty newline-free list. -/
def opt2Tail : List Char → Bool
  | ',' :: ' ' :: rest => !rest.isEmpty && rest.all (fun c => !(c == '\n'))
  | _ => false

/-- Does `(?:, .+)?$` match the whole list? -/
def endOpt2 (s : List Char) : Bool := opt2Tail s || s.isEmpty

/-- Does `(?:, \d{2}-\d{3})(?:, .+)?$` match the whole list (the first
optional suffix, taken)? -/
def opt1Tail : List Char → Bool
  | ',' :: ' ' :: a :: b :: '-' :: c :: d :: e :: rest =>
    a.isDigit && b.isDigit && c.isDigit && d.isDigit && e.isDigit && endOpt2 rest
  | _ => false

/-- Does `(?:, \d{2}-\d{3})?(?:, .+)?$` match the whole list? -/
def endOpt1 (s : List Char) : Bool := opt1Tail s || endOpt2 s

/-- Lazy scan for group 2: return the shortest newline-free segment whose
remainder matches the tail of the pattern.  `acc` holds the segment read
so far, reversed. -/
def findG2 : List Char → List Char → Option (List Char)
  | acc, [] => if endOpt1 [] then some acc.reverse else none
  | acc, c :: rest =>
    if endOpt1 (c :: rest) then some acc.reverse
    else if c == '\n' then none
    else findG2 (c :: acc) rest

/-- Lazy scan for group 1: find the shortest newline-free segment followed
by `','` after which `\s*` and the group-2 scan succeed.  Returns the two
capture groups. -/
def findG1 : List Char → List Char → Option (List Char × List Char)
  | _, [] => none
  | acc, c :: rest =>
    if c == ',' then
      match findG2 [] (rest.dropWhile isReSpace) with
      | some g2 => some (acc.reverse, g2)
      | none => findG1 (c :: acc) rest
    else if c == '\n' then none
    else findG1 (c :: acc) rest

/-- Go `strings.SplitN(s, " ", 2)`: the part before the first `' '`, and
the remainder when a `' '` exists. -/
def splitN2 : List Char → List Char × Option (List Char)
  | [] => ([], none)
  | ' ' :: rest => ([], some rest)
  | c :: rest =>
    let p := splitN2 rest
    (c :: p.1, p.2)

/-- `extractStreetAndNumber` from `gmaps/entry.go`: run the pattern; on no
match return `("", "")`; otherwise split group 2 at the first `' '` into
street and number (no `' '`: the whole segment is the street). -/
def extractStreetAndNumber (fullAddress : String) : String × String :=
  match findG1 [] fullAddress.data with
  | none => ("", "")
  | some (_, g2) =>
    match splitN2 g2 with
    | (a, some b) => (String.mk a, String.mk b)
    | (a, none) => (String.mk a, "")

/-! ### `EntryFromJSON` -/

/-- Outcome of `EntryFromJSON`: `err` is the `(Entry{}, error)` return,
`panic` is a Go runtime panic inside a field extraction, `ok` carries the
produced record. -/
inductive DecodeOutcome where
  | err : DecodeOutcome
  | panic : DecodeOutcome
  | ok : Entry → DecodeOutcome
deriving Repr, DecidableEq

/-- The field-extraction part of `EntryFromJSON` (the `Entry` composite
literal and the statements after it), sequenced so that a panic (`none`)
in any extraction aborts the whole decode. -/
def buildEntry (darray : List JVal) : Option Entry := do
  let eid ← getNthElementAndCast castString "" darray [0]
  let link ← getNthElementAndCast castString "" darray [1]
  let title ← getNthElementAndCast castString "" darray [11]
  let city ← getNthElementAndCast castString "" darray [183, 1, 3]
  let webSite ← getNthElementAndCast castString "" darray [7, 0]
  let phone ← getNthElementAndCast castString "" darray [178, 0, 0]
  let emails ← getNthElementAndCast castStringList [] darray [5]
  let fullAddress ← getNthElementAndCast castString "" darray [18]
  let sn := extractStreetAndNumber fullAddress
  pure {
    ID := eid, Link := link, Title := title,
    Address := { Street := sn.1, Number := sn.2 },
    City := city, WebSite := webSite, Phone := phone, Emails := emails,
    SocialLinks :=
      setTw (setIg (setFb { facebook := none, instagram := none, twitter := none } webSite)
        webSite) webSite,
    NIP := "", CEIDG := "" }

/-- `EntryFromJSON` from `gmaps/entry.go`, applied to the already
unmarshalled top-level value (a raw byte input that is not valid JSON, or
whose top level is not an array, takes the same `err` return as the
non-array case here). -/
def EntryFromJSON (jd : JVal) : DecodeOutcome :=
  match jd with
  | JVal.arr elems =>
    if elems.length < 7 then DecodeOutcome.err
    else
      match elems.get? 6 with
      | some (JVal.arr darray) =>
        match buildEntry darray with
        | some e => DecodeOutcome.ok e
        | none => DecodeOutcome.panic
      | _ => DecodeOutcome.err
  | _ => DecodeOutcome.err

/-- The spec's decode-failure condition, written from its words: the
payload is not a sequence, or has fewer than 7 top-level elements, or the
element at top-level index 6 is not a sequence. -/
def specMalformedShape : JVal → Bool
  | JVal.arr elems =>
    decide (elems.length < 7) ||
      (match elems.get? 6 with
       | some (JVal.arr _) => false
       | _ => true)
  | _ => true

/-! ### The Contact Miner (`gmaps/emailjob.go`)

Only anchor elements and their `href` attributes are ever inspected by
the mined code (`doc.Find("a[href^='mailto:']")` and `doc.Find("a")`), so
a parsed document is modelled as its list of anchors in document order.
The `emailaddress` library is an external collaborator: its
`Parse(...)`+`String()` pipeline is the parameter `parseEmail` (`none` =
parse error) and its `Find(body, false)` is the parameter `findAddrs`
(already composed with `String()` on each hit, in order). -/

structure Anchor where
  href : Option String
deriving Repr, DecidableEq

structure Doc where
  anchors : List Anchor
deriving Repr, DecidableEq

/-- A `scrapemate.Response` as consumed by the jobs: `error` mirrors
`resp.Error`, `document` is `some d` exactly when the dynamic type
assertion `resp.Document.(*goquery.Document)` succeeds, `body` is
`resp.Body`. -/
structure Response where
  error : Option String
  document : Option Doc
  body : String
deriving Repr, DecidableEq

/-- `getValidEmail` from `gmaps/emailjob.go`:
`emailaddress.Parse(strings.TrimSpace(s))` followed by `String()`. -/
def getValidEmail (parseEmail : String → Option String) (s : String) : Option String :=
  parseEmail (trimSpaceGo s)

/-- `docEmailExtractor`: walk the anchors selected by
`a[href^='mailto:']` in document order, strip the scheme, validate, and
append unseen results.  The Go `seen` map holds exactly the e-mails
already appended, so membership in the accumulator is the same test. -/
def docEmailExtractor (parseEmail : String → Option String) (doc : Doc) : List String :=
  doc.anchors.foldl
    (fun emails a =>
      match a.href with
      | some mailto =>
        if startsWithList mailto.data "mailto:".data then
          match getValidEmail parseEmail (trimFront mailto "mailto:") with
          | some email => if emails.contains email then emails else emails ++ [email]
          | none => emails
        else emails
      | none => emails)
    []

/-- `regexEmailExtractor`: `emailaddress.Find(body, false)` hits,
deduplicated in first-seen order. -/
def regexEmailExtractor (findAddrs : String → List String) (body : String) : List String :=
  (findAddrs body).foldl
    (fun emails e => if emails.contains e then emails else emails ++ [e]) []

/-- The body of the `doc.Find("a").Each` callback in
`extractSocialLinks`: the three `strings.Contains` guarded writes, in
source order. -/
def socialStep (m : SocialMap) (a : Anchor) : SocialMap :=
  match a.href with
  | none => m
  | some href => setTw (setIg (setFb m href) href) href

/-- `extractSocialLinks` from `gmaps/emailjob.go`: fold the callback over
all anchors in document order starting from an empty map. -/
def extractSocialLinks (doc : Doc) : SocialMap :=
  doc.anchors.foldl socialStep { facebook := none, instagram := none, twitter := none }

/-- `for key, value := range socialLinks { j.Entry.SocialLinks[key] = value }`:
every key present in `src` overwrites `dst`, absent keys leave `dst`
unchanged (the iteration order of the Go map is immaterial because the
keys are distinct). -/
def rangeCopy (dst src : SocialMap) : SocialMap :=
  { facebook := match src.facebook with | some v => some v | none => dst.facebook,
    instagram := match src.instagram with | some v => some v | none => dst.instagram,
    twitter := match src.twitter with | some v => some v | none => dst.twitter }

/-! ### The identifier extractor (`extractNIP`)

The regex `((\d{3}[- ]\d{3}[- ]\d{2}[- ]\d{2})|(\d{3}[- ]\d{2}[- ]\d{2}[- ]\d{3}))`
consists of two fixed-shape alternatives built from the disjoint classes
`\d` = `[0-9]` and `[- ]`, so matching is deterministic: `re.Find`
returns the match at the leftmost position where either shape fits, the
first alternative probed first. -/

/-- `[- ]`. -/
def isSepCh (c : Char) : Bool := c == '-' || c == ' '

/-- Take exactly `n` ASCII digits off the front of the list, returning
them and the remainder. -/
def takeDigitRun : Nat → List Char → Option (List Char × List Char)
  | 0, s => some ([], s)
  | _ + 1, [] => none
  | n + 1, c :: s =>
    if c.isDigit then (takeDigitRun n s).map (fun p => (c :: p.1, p.2)) else none

/-- Match digit groups of the given sizes separated by single `[- ]`
characters, returning the matched text (separators included). -/
def matchShape : List Nat → List Char → Option (List Char)
  | [], _ => some []
  | [n], s => (takeDigitRun n s).map (fun p => p.1)
  | n :: g :: gs, s => do
    let p ← takeDigitRun n s
    match p.2 with
    | c :: r2 =>
      if isSepCh c then do
        let m2 ← matchShape (g :: gs) r2
        pure (p.1 ++ c :: m2)
      else none
    | [] => none

/-- Try the two alternatives of the NIP regex at one position, in
pattern order: `\d{3}[- ]\d{3}[- ]\d{2}[- ]\d{2}` then
`\d{3}[- ]\d{2}[- ]\d{2}[- ]\d{3}`. -/
def matchNIPAt (s : List Char) : Option (List Char) :=
  match matchShape [3, 3, 2, 2] s with
  | some m => some m
  | none => matchShape [3, 2, 2, 3] s

/-- `re.Find(body)`: the match at the leftmost matching position. -/
def findNIP : List Char → Option (List Char)
  | [] => none
  | c :: rest =>
    match matchNIPAt (c :: rest) with
    | some m => some m
    | none => findNIP rest

/-- `cleanNIP` from `gmaps/emailjob.go`: remove every `'-'` and `' '`
(the two single-character `strings.ReplaceAll` passes). -/
def cleanNIP (nip : String) : String :=
  String.mk (nip.data.filter (fun c => !(c == '-') && !(c == ' ')))

/-- `extractNIP` from `gmaps/emailjob.go`. -/
def extractNIP (body : String) : String :=
  match findNIP body.data with
  | some m => cleanNIP (String.mk m)
  | none => ""

/-! ### `EmailExtractJob.Process` -/

/-- The observable content of the job built by `NewCEIDGJob`: its method
and its formatted URL (the job also references the same shared record). -/
structure CEIDGJobModel where
  Method : String
  URL : String
deriving Repr, DecidableEq

/-- `NewCEIDGJob` from `gmaps/emailjob.go`. -/
def newCEIDGJob (entry : Entry) : CEIDGJobModel :=
  { Method := "GET", URL := "https://api.firmateka.pl/ceidg/firmy?nip=" ++ cleanNIP entry.NIP }

/-- The two-phase e-mail result: the `mailto:` scan, falling back to the
body regex scan only when the first phase found nothing
(`if len(emails) == 0`). -/
def minedEmails (parseEmail : String → Option String) (findAddrs : String → List String)
    (doc : Doc) (body : String) : List String :=
  if (docEmailExtractor parseEmail doc).isEmpty then regexEmailExtractor findAddrs body
  else docEmailExtractor parseEmail doc

/-- The state of the shared record after the three in-place mutations of
`EmailExtractJob.Process` (`Emails`, merged `SocialLinks`, `NIP`). -/
def minedEntry (parseEmail : String → Option String) (findAddrs : String → List String)
    (entry : Entry) (doc : Doc) (body : String) : Entry :=
  { entry with
      Emails := minedEmails parseEmail findAddrs doc body,
      SocialLinks := rangeCopy entry.SocialLinks (extractSocialLinks doc),
      NIP := extractNIP body }

/-- The successful-fetch, parsed-document part of
`EmailExtractJob.Process`: mutate the record, then spawn the registry
job exactly when the mined identifier is non-empty. -/
def emailProcessBody (parseEmail : String → Option String) (findAddrs : String → List String)
    (entry : Entry) (doc : Doc) (body : String) :
    Entry × List CEIDGJobModel × Option String :=
  if extractNIP body ≠ "" then
    (minedEntry parseEmail findAddrs entry doc body,
     [newCEIDGJob (minedEntry parseEmail findAddrs entry doc body)], none)
  else
    (minedEntry parseEmail findAddrs entry doc body, [], none)

/-- `EmailExtractJob.Process` from `gmaps/emailjob.go`.  A fetch error,
or a `Document` that is not a `*goquery.Document`, returns the record
untouched with no child jobs and a nil error.  (The `defer` that nils
out the response fields has no observable effect on the returned
values.) -/
def emailProcess (parseEmail : String → Option String) (findAddrs : String → List String)
    (entry : Entry) (resp : Response) : Entry × List CEIDGJobModel × Option String :=
  match resp.error with
  | some _ => (entry, [], none)
  | none =>
    match resp.document with
    | none => (entry, [], none)
    | some doc => emailProcessBody parseEmail findAddrs entry doc resp.body

/-! ### `CEIDGExtractJob.Process` (`gmaps/emailjob.go`)

The method talks to `.env` loading, the process environment and its own
HTTP client before parsing; each of those external steps is a field of
`ExtWorld`, consumed in the order the source consumes them. -/

structure AdresDzialalnosci where
  ulica : String
  budynek : String
  miasto : String
  wojewodztwo : String
  powiat : String
  gmina : String
  kraj : String
  kod : String
deriving Repr, DecidableEq

structure Wlasciciel where
  imie : String
  nazwisko : String
  nip : String
  regon : String
deriving Repr, DecidableEq

structure Firma where
  id : String
  nazwa : String
  adresDzialalnosci : AdresDzialalnosci
  wlasciciel : Wlasciciel
  dataRozpoczecia : String
  status : String
  link : String
deriving Repr, DecidableEq

/-- The anonymous response struct `{ Firmy []struct{...} }` the method
unmarshals into. -/
structure FirmatekaResponse where
  firmy : List Firma
deriving Repr, DecidableEq

/-- The external world of `CEIDGExtractJob.Process`: `godotenv.Load`,
`os.Getenv("FIRMATEKA_API_KEY")`, `http.NewRequest`, `client.Do`,
`ioutil.ReadAll`, and `json.Unmarshal` into `FirmatekaResponse`. -/
structure ExtWorld where
  dotenvErr : Option String
  firmatekaApiKey : String
  requestErr : Option String
  doErr : Option String
  readErr : Option String
  body : String
  unmarshal : String → Except String FirmatekaResponse

/-- The `fmt.Sprintf` template assigned to `j.Entry.CEIDG`, argument
order as in the source. -/
def formatCeidg (f : Firma) : String :=
  "\x7b\n\t\t\t\"id\": \"" ++ f.id ++ "\",\n\t\t\t\"nazwa\": \"" ++ f.nazwa ++
  "\",\n\t\t\t\"wlasciciel\": \x7b\n\t\t\t\t\"imie\": \"" ++ f.wlasciciel.imie ++
  "\",\n\t\t\t\t\"nazwisko\": \"" ++ f.wlasciciel.nazwisko ++
  "\",\n\t\t\t\t\"nip\": \"" ++ f.wlasciciel.nip ++
  "\",\n\t\t\t\t\"regon\": \"" ++ f.wlasciciel.regon ++
  "\"\n\t\t\t\x7d,\n\t\t\t\"adresDzialalnosci\": \x7b\n\t\t\t\t\"ulica\": \"" ++
  f.adresDzialalnosci.ulica ++
  "\",\n\t\t\t\t\"budynek\": \"" ++ f.adresDzialalnosci.budynek ++
  "\",\n\t\t\t\t\"miasto\": \"" ++ f.adresDzialalnosci.miasto ++
  "\",\n\t\t\t\t\"wojewodztwo\": \"" ++ f.adresDzialalnosci.wojewodztwo ++
  "\",\n\t\t\t\t\"powiat\": \"" ++ f.adresDzialalnosci.powiat ++
  "\",\n\t\t\t\t\"gmina\": \"" ++ f.adresDzialalnosci.gmina ++
  "\",\n\t\t\t\t\"kraj\": \"" ++ f.adresDzialalnosci.kraj ++
  "\",\n\t\t\t\t\"kod\": \"" ++ f.adresDzialalnosci.kod ++
  "\"\n\t\t\t\x7d,\n\t\t\t\"dataRozpoczecia\": \"" ++ f.dataRozpoczecia ++
  "\",\n\t\t\t\"status\": \"" ++ f.status ++
  "\",\n\t\t\t\"link\": \"" ++ f.link ++ "\"\n\t\t\x7d"

/-- `CEIDGExtractJob.Process`: every pre-parse failure returns the record
untouched with the corresponding error; an unmarshal failure returns the
record untouched with that error; an empty `Firmy` array is a nil-error
no-op; a non-empty one serializes `Firmy[0]` into `CEIDG`.  No branch
ever spawns a child job. -/
def ceidgProcess (w : ExtWorld) (entry : Entry) : Entry × List CEIDGJobModel × Option String :=
  match w.dotenvErr with
  | some _ => (entry, [], some "could not load .env file")
  | none =>
    if w.firmatekaApiKey = "" then (entry, [], some "missing API key")
    else
      match w.requestErr with
      | some e => (entry, [], some e)
      | none =>
        match w.doErr with
        | some e => (entry, [], some e)
        | none =>
          match w.readErr with
          | some e => (entry, [], some e)
          | none =>
            match w.unmarshal w.body with
            | Except.error e => (entry, [], some e)
            | Except.ok r =>
              match r.firmy with
              | firma :: _ => ({ entry with CEIDG := formatCeidg firma }, [], none)
              | [] => (entry, [], none)

/-! ### Derived notions used to state the claims -/

/-- Left-biased choice on optional values (Go map overwrite semantics). -/
def optOr (a b : Option String) : Option String :=
  match a with
  | some v => some v
  | none => b

/-- The contribution of one anchor to one platform: its `href` when
present and containing the platform substring. -/
def anchorMatch (needle : String) (a : Anchor) : Option String :=
  match a.href with
  | some h => if strContains h needle then some h else none
  | none => none

/-- The `href` of the last anchor in document order whose target contains
`needle`, if any. -/
def lastMatch (needle : String) : List Anchor → Option String
  | [] => none
  | a :: t => optOr (lastMatch needle t) (anchorMatch needle a)

/-- A record with every field at its Go zero value (`Entry{}`). -/
def emptyEntry : Entry :=
  { ID := "", Link := "", Title := "",
    Address := { Street := "", Number := "" },
    City := "", WebSite := "", Phone := "", Emails := [],
    SocialLinks := { facebook := none, instagram := none, twitter := none },
    NIP := "", CEIDG := "" }

/-! ### Concrete inputs used in the claim theorems and witnesses -/

/-- A payload that passes every shape check of `EntryFromJSON` (top-level
sequence, 7 elements, sequence at index 6) whose business sub-sequence
has length 1: the `Link` extraction then reads `darray[1]` on a
non-empty array, out of range. -/
def shortDarrayPayload : JVal :=
  JVal.arr [JVal.null, JVal.null, JVal.null, JVal.null, JVal.null, JVal.null,
    JVal.arr [JVal.str "x"]]

/-- A business sub-sequence long enough (19 elements) for every terminal
read, whose index 5 holds a JSON array of strings. -/
def darrayWithEmails : List JVal :=
  [JVal.str "0x1", JVal.str "https://maps.google.com/place", JVal.null, JVal.null, JVal.null,
   JVal.arr [JVal.str "a@x.com"], JVal.null, JVal.null, JVal.null, JVal.null, JVal.null,
   JVal.str "Acme Shop", JVal.null, JVal.null, JVal.null, JVal.null, JVal.null, JVal.null,
   JVal.str "Acme, Main Street 12"]

def payloadWithEmails : JVal :=
  JVal.arr [JVal.null, JVal.null, JVal.null, JVal.null, JVal.null, JVal.null,
    JVal.arr darrayWithEmails]

/-- The record `EntryFromJSON` produces for `payloadWithEmails`; note
`Emails = []` although index 5 holds `["a@x.com"]`. -/
def entryWithEmailsExpected : Entry :=
  { ID := "0x1", Link := "https://maps.google.com/place", Title := "Acme Shop",
    Address := { Street := "Main", Number := "Street 12" },
    City := "", WebSite := "", Phone := "", Emails := [],
    SocialLinks := { facebook := none, instagram := none, twitter := none },
    NIP := "", CEIDG := "" }

/-- A concrete stand-in for the external e-mail parser: accepts every
string unchanged. -/
def wParse : String → Option String := fun s => some s

/-- A concrete stand-in for the external body scanner that finds one
address. -/
def wFind : String → List String := fun _ => ["z@w.com"]

/-- A second concrete body scanner, finding nothing. -/
def wFind2 : String → List String := fun _ => []

def wDoc : Doc := { anchors := [{ href := some "mailto:a@x.com" }] }

def wResp : Response := { error := none, document := some wDoc, body := "" }

/-- A record carrying provisional social links seeded at decode time. -/
def c5Entry : Entry :=
  { emptyEntry with
      SocialLinks :=
        { facebook := some "https://facebook.com/seed",
          instagram := some "https://instagram.com/seed", twitter := none } }

/-- Two anchors whose targets contain `"facebook"`, with an attribute-less
anchor between them. -/
def c5Doc : Doc :=
  { anchors := [{ href := some "https://facebook.com/a" }, { href := none },
      { href := some "https://facebook.com/b" }] }

def c5Resp : Response := { error := none, document := some c5Doc, body := "" }

/-- A successful fetch whose `Document` is not a `*goquery.Document`,
with a body full of extractable signals. -/
def c10Resp : Response :=
  { error := none, document := none, body := "contact@shop.com 123-456-78-90" }

/-- An external world whose registry response parses to an empty `firmy`
array. -/
def okWorldEmpty : ExtWorld :=
  { dotenvErr := none, firmatekaApiKey := "key", requestErr := none, doErr := none,
    readErr := none, body := "firmy-empty", unmarshal := fun _ => Except.ok { firmy := [] } }

/-- An external world whose registry response body does not parse. -/
def badWorldParse : ExtWorld :=
  { dotenvErr := none, firmatekaApiKey := "key", requestErr := none, doErr := none,
    readErr := none, body := "not json",
    unmarshal := fun _ => Except.error "invalid character" }

/-! ### Helper lemmas -/

theorem optOr_assoc (a b c : Option String) : optOr (optOr a b) c = optOr a (optOr b c) := by
  cases a <;> rfl

theorem optOr_none_right (a : Option String) : optOr a none = a := by
  cases a <;> rfl

theorem setFb_facebook (m : SocialMap) (h : String) :
    (setFb m h).facebook = if strContains h "facebook" then some h else m.facebook := by
  unfold setFb; split <;> rfl

theorem setFb_instagram (m : SocialMap) (h : String) :
    (setFb m h).instagram = m.instagram := by
  unfold setFb; split <;> rfl

theorem setFb_twitter (m : SocialMap) (h : String) :
    (setFb m h).twitter = m.twitter := by
  unfold setFb; split <;> rfl

theorem setIg_facebook (m : SocialMap) (h : String) :
    (setIg m h).facebook = m.facebook := by
  unfold setIg; split <;> rfl

theorem setIg_instagram (m : SocialMap) (h : String) :
    (setIg m h).instagram = if strContains h "instagram" then some h else m.instagram := by
  unfold setIg; split <;> rfl

theorem setIg_twitter (m : SocialMap) (h : String) :
    (setIg m h).twitter = m.twitter := by
  unfold setIg; split <;> rfl

theorem setTw_facebook (m : SocialMap) (h : String) :
    (setTw m h).facebook = m.facebook := by
  unfold setTw; split <;> rfl

theorem setTw_instagram (m : SocialMap) (h : String) :
    (setTw m h).instagram = m.instagram := by
  unfold setTw; split <;> rfl

theorem setTw_twitter (m : SocialMap) (h : String) :
    (setTw m h).twitter = if strContains h "twitter" then some h else m.twitter := by
  unfold setTw; split <;> rfl

theorem socialStep_facebook (m : SocialMap) (a : Anchor) :
    (socialStep m a).facebook = optOr (anchorMatch "facebook" a) m.facebook := by
  obtain ⟨href⟩ := a
  cases href with
  | none => rfl
  | some h =>
    simp only [socialStep, anchorMatch, setTw_facebook, setIg_facebook, setFb_facebook]
    cases hc : strContains h "facebook" <;> simp [hc, optOr]

theorem socialStep_instagram (m : SocialMap) (a : Anchor) :
    (socialStep m a).instagram = optOr (anchorMatch "instagram" a) m.instagram := by
  obtain ⟨href⟩ := a
  cases href with
  | none => rfl
  | some h =>
    simp only [socialStep, anchorMatch, setTw_instagram, setIg_instagram, setFb_instagram]
    cases hc : strContains h "instagram" <;> simp [hc, optOr]

theorem socialStep_twitter (m : SocialMap) (a : Anchor) :
    (socialStep m a).twitter = optOr (anchorMatch "twitter" a) m.twitter := by
  obtain ⟨href⟩ := a
  cases href with
  | none => rfl
  | some h =>
    simp only [socialStep, anchorMatch, setTw_twitter, setIg_twitter, setFb_twitter]
    cases hc : strContains h "twitter" <;> simp [hc, optOr]

theorem foldl_social_facebook (l : List Anchor) (m : SocialMap) :
    (l.foldl socialStep m).facebook = optOr (lastMatch "facebook" l) m.facebook := by
  induction l generalizing m with
  | nil => rfl
  | cons a t ih =>
    rw [List.foldl_cons, ih, socialStep_facebook]
    show _ = optOr (optOr (lastMatch "facebook" t) (anchorMatch "facebook" a)) m.facebook
    rw [optOr_assoc]

theorem foldl_social_instagram (l : List Anchor) (m : SocialMap) :
    (l.foldl socialStep m).instagram = optOr (lastMatch "instagram" l) m.instagram := by
  induction l generalizing m with
  | nil => rfl
  | cons a t ih =>
    rw [List.foldl_cons, ih, socialStep_instagram]
    show _ = optOr (optOr (lastMatch "instagram" t) (anchorMatch "instagram" a)) m.instagram
    rw [optOr_assoc]

theorem foldl_social_twitter (l : List Anchor) (m : SocialMap) :
    (l.foldl socialStep m).twitter = optOr (lastMatch "twitter" l) m.twitter := by
  induction l generalizing m with
  | nil => rfl
  | cons a t ih =>
    rw [List.foldl_cons, ih, socialStep_twitter]
    show _ = optOr (optOr (lastMatch "twitter" t) (anchorMatch "twitter" a)) m.twitter
    rw [optOr_assoc]

theorem extractSocialLinks_facebook (doc : Doc) :
    (extractSocialLinks doc).facebook = lastMatch "facebook" doc.anchors := by
  unfold extractSocialLinks
  rw [foldl_social_facebook]
  exact optOr_none_right _

theorem extractSocialLinks_instagram (doc : Doc) :
    (extractSocialLinks doc).instagram = lastMatch "instagram" doc.anchors := by
  unfold extractSocialLinks
  rw [foldl_social_instagram]
  exact optOr_none_right _

theorem extractSocialLinks_twitter (doc : Doc) :
    (extractSocialLinks doc).twitter = lastMatch "twitter" doc.anchors := by
  unfold extractSocialLinks
  rw [foldl_social_twitter]
  exact optOr_none_right _

theorem emailProcess_some_doc (parseEmail : String → Option String)
    (findAddrs : String → List String) (entry : Entry) (resp : Response) (doc : Doc)
    (hE : resp.error = none) (hD : resp.document = some doc) :
    emailProcess parseEmail findAddrs entry resp
      = emailProcessBody parseEmail findAddrs entry doc resp.body := by
  unfold emailProcess
  rw [hE, hD]

theorem emailProcessBody_entry (parseEmail : String → Option String)
    (findAddrs : String → List String) (entry : Entry) (doc : Doc) (body : String) :
    (emailProcessBody parseEmail findAddrs entry doc body).1
      = minedEntry parseEmail findAddrs entry doc body := by
  unfold emailProcessBody
  split <;> rfl

theorem findNIP_none (l : List Char) (h : ∀ s ∈ l.tails, matchNIPAt s = none) :
    findNIP l = none := by
  induction l with
  | nil => rfl
  | cons c t ih =>
    have h0 : matchNIPAt (c :: t) = none := by
      refine h (c :: t) ?_
      rw [List.mem_tails]
    have ht : findNIP t = none := by
      refine ih (fun s hs => h s ?_)
      rw [List.mem_tails] at hs ⊢
      exact hs.trans (List.suffix_cons c t)
    simp only [findNIP, h0, ht]

/-! ### Claim theorems -/

/-- Claim C1 (code bug): the claim says every per-field path miss — in
particular an out-of-range index — yields the field's zero value without
failing the decode.  The source only bound-checks indexes inside the
descent loop; at the terminal index it checks `len(arr) == 0` and then
reads `arr[indexes[0]]` unguarded, so a terminal index out of range on a
non-empty array is a runtime panic: `getNthElementAndCast[string]`
applied to the length-1 array with index 1 panics (`none`), and the
decode of the well-formed `shortDarrayPayload` aborts with that panic
instead of producing a record with a zero-valued `Link`. -/
theorem C1_terminal_index_panics :
    getNthElementAndCast castString "" [JVal.str "x"] [1] = none
    ∧ EntryFromJSON shortDarrayPayload = DecodeOutcome.panic := by
  exact ⟨by decide, by decide⟩

/-- Claim C2 (code bug): the claim says a payload whose business
sub-sequence holds a sequence of strings at index 5 decodes to a record
whose emails equal that sequence.  `json.Unmarshal` into `[]any` stores a
JSON array as `[]any`, never `[]string`, so the terminal assertion
`.([]string)` always fails and `Emails` is always the zero value: the
concrete `payloadWithEmails` carries `["a@x.com"]` at index 5 yet decodes
with `Emails = []`. -/
theorem C2_emails_always_zero :
    EntryFromJSON payloadWithEmails = DecodeOutcome.ok entryWithEmailsExpected
    ∧ entryWithEmailsExpected.Emails = [] := by
  exact ⟨by decide, rfl⟩

/-- Claim C3 (code bug): the claim says decode fails with an error
exactly on the three shape conditions and in every other case produces a
record with a nil error.  `shortDarrayPayload` satisfies none of the
failure conditions (`specMalformedShape` is `false` on it) yet the decode
neither errors nor produces a record: it panics on the terminal
out-of-range read of `darray[1]`. -/
theorem C3_wellformed_payload_panics :
    specMalformedShape shortDarrayPayload = false
    ∧ EntryFromJSON shortDarrayPayload = DecodeOutcome.panic := by
  exact ⟨by decide, by decide⟩

/-- Claim C4: on a successful fetch with a parsed document, if the
`mailto:` phase yields at least one e-mail then the record's emails are
exactly that phase-one list, and the whole result does not depend on the
raw-body scanner at all (the regex fallback is never executed). -/
theorem C4_fallback_suppression (parseEmail : String → Option String)
    (findAddrs findAddrs2 : String → List String) (entry : Entry) (resp : Response) (doc : Doc)
    (hE : resp.error = none) (hD : resp.document = some doc)
    (hNE : docEmailExtractor parseEmail doc ≠ []) :
    (emailProcess parseEmail findAddrs entry resp).1.Emails = docEmailExtractor parseEmail doc
    ∧ emailProcess parseEmail findAddrs entry resp
        = emailProcess parseEmail findAddrs2 entry resp := by
  have hne : (docEmailExtractor parseEmail doc).isEmpty = false := by
    cases hd : docEmailExtractor parseEmail doc with
    | nil => exact absurd hd hNE
    | cons x xs => rfl
  have hm : ∀ g : String → List String,
      minedEmails parseEmail g doc resp.body = docEmailExtractor parseEmail doc := by
    intro g
    unfold minedEmails
    rw [hne]
    simp
  constructor
  · rw [emailProcess_some_doc parseEmail findAddrs entry resp doc hE hD,
      emailProcessBody_entry]
    show minedEmails parseEmail findAddrs doc resp.body = docEmailExtractor parseEmail doc
    exact hm findAddrs
  · rw [emailProcess_some_doc parseEmail findAddrs entry resp doc hE hD,
      emailProcess_some_doc parseEmail findAddrs2 entry resp doc hE hD]
    have hent : minedEntry parseEmail findAddrs entry doc resp.body
        = minedEntry parseEmail findAddrs2 entry doc resp.body := by
      unfold minedEntry
      rw [hm findAddrs, hm findAddrs2]
    unfold emailProcessBody
    rw [hent]

/-- Witness for C4: a document with one `mailto:` anchor; the mined
emails are the phase-one result and swapping the body scanner changes
nothing. -/
theorem C4_fallback_suppression_witness :
    (emailProcess wParse wFind emptyEntry wResp).1.Emails = ["a@x.com"]
    ∧ emailProcess wParse wFind emptyEntry wResp = emailProcess wParse wFind2 emptyEntry wResp := by
  have h := C4_fallback_suppression wParse wFind wFind2 emptyEntry wResp wDoc rfl rfl
    (by decide)
  exact ⟨(h.1).trans (by decide), h.2⟩

/-- Claim C5: on a successful fetch with a parsed document, for each of
the three platforms the retained social link is the `href` of the last
anchor in document order whose target contains the platform substring
when one exists (overwriting any provisional decode-time entry), and the
record's previous entry otherwise. -/
theorem C5_last_anchor_wins (parseEmail : String → Option String)
    (findAddrs : String → List String) (entry : Entry) (resp : Response) (doc : Doc)
    (hE : resp.error = none) (hD : resp.document = some doc) :
    ((emailProcess parseEmail findAddrs entry resp).1.SocialLinks.facebook
       = optOr (lastMatch "facebook" doc.anchors) entry.SocialLinks.facebook)
    ∧ ((emailProcess parseEmail findAddrs entry resp).1.SocialLinks.instagram
       = optOr (lastMatch "instagram" doc.anchors) entry.SocialLinks.instagram)
    ∧ ((emailProcess parseEmail findAddrs entry resp).1.SocialLinks.twitter
       = optOr (lastMatch "twitter" doc.anchors) entry.SocialLinks.twitter) := by
  rw [emailProcess_some_doc parseEmail findAddrs entry resp doc hE hD,
    emailProcessBody_entry]
  refine ⟨?_, ?_, ?_⟩
  · show optOr (extractSocialLinks doc).facebook entry.SocialLinks.facebook = _
    rw [extractSocialLinks_facebook]
  · show optOr (extractSocialLinks doc).instagram entry.SocialLinks.instagram = _
    rw [extractSocialLinks_instagram]
  · show optOr (extractSocialLinks doc).twitter entry.SocialLinks.twitter = _
    rw [extractSocialLinks_twitter]

/-- Witness for C5: two in-document facebook anchors overwrite the
provisional seed with the later one; the instagram seed survives
untouched; twitter stays absent. -/
theorem C5_last_anchor_wins_witness :
    (emailProcess wParse wFind c5Entry c5Resp).1.SocialLinks.facebook
      = some "https://facebook.com/b"
    ∧ (emailProcess wParse wFind c5Entry c5Resp).1.SocialLinks.instagram
      = some "https://instagram.com/seed"
    ∧ (emailProcess wParse wFind c5Entry c5Resp).1.SocialLinks.twitter = none := by
  have h := C5_last_anchor_wins wParse wFind c5Entry c5Resp c5Doc rfl rfl
  exact ⟨(h.1).trans (by decide), (h.2.1).trans (by decide), (h.2.2).trans (by decide)⟩

/-- Claim C6: the Address Splitter returns the documented concrete
splits, and returns `("", "")` on every input the two-group pattern does
not match. -/
theorem C6_address_splitter (s : String) (h : findG1 [] s.data = none) :
    extractStreetAndNumber "Acme, Main Street 12, 00-123, Poland" = ("Main", "Street 12")
    ∧ extractStreetAndNumber "Acme, MainStreet" = ("MainStreet", "")
    ∧ extractStreetAndNumber s = ("", "") := by
  refine ⟨by decide, by decide, ?_⟩
  unfold extractStreetAndNumber
  rw [h]

/-- Witness for C6: a comma-free input does not match the pattern and
splits to `("", "")`. -/
theorem C6_address_splitter_witness :
    findG1 [] "just a street".data = none
    ∧ extractStreetAndNumber "just a street" = ("", "") := by
  exact ⟨by decide, (C6_address_splitter "just a street" (by decide)).2.2⟩

/-- Claim C7: the Identifier Extractor returns `"1234567890"` for both
digit groupings (also when embedded in surrounding text as the first
match), and the empty string for any body none of whose positions match
either grouping. -/
theorem C7_nip_groupings (body : String)
    (h : ∀ s ∈ body.data.tails, matchNIPAt s = none) :
    extractNIP "123-456-78-90" = "1234567890"
    ∧ extractNIP "123-45-67-890" = "1234567890"
    ∧ extractNIP "tel 555, NIP: 123-456-78-90." = "1234567890"
    ∧ extractNIP body = "" := by
  refine ⟨by decide, by decide, by decide, ?_⟩
  unfold extractNIP
  rw [findNIP_none body.data h]

/-- Witness for C7: a digit-free body has no match at any position and
yields the empty identifier. -/
theorem C7_nip_groupings_witness :
    extractNIP "123-456-78-90" = "1234567890" ∧ extractNIP "no digits here" = "" := by
  have h := C7_nip_groupings "no digits here" (by decide)
  exact ⟨h.1, h.2.2.2⟩

/-- Claim C8: when every transport step succeeds and the registry body
parses to an empty company array, the job returns a nil error, spawns no
child job, and returns the record bit-for-bit unchanged (in particular
`CEIDG` stays unset). -/
theorem C8_empty_firmy_noop (w : ExtWorld) (entry : Entry)
    (h1 : w.dotenvErr = none) (h2 : w.firmatekaApiKey ≠ "")
    (h3 : w.requestErr = none) (h4 : w.doErr = none) (h5 : w.readErr = none)
    (h6 : w.unmarshal w.body = Except.ok { firmy := [] }) :
    ceidgProcess w entry = (entry, [], none) := by
  simp only [ceidgProcess, h1, h3, h4, h5, h6]
  rw [if_neg h2]

/-- Witness for C8: a concrete empty-`firmy` world leaves the zero record
untouched with no jobs and no error. -/
theorem C8_empty_firmy_noop_witness :
    ceidgProcess okWorldEmpty emptyEntry = (emptyEntry, [], none) := by
  exact C8_empty_firmy_noop okWorldEmpty emptyEntry rfl (by decide) rfl rfl rfl rfl

/-- Claim C9: when every transport step succeeds but the registry body
does not parse, the job surfaces that parse error and returns the record
with every field exactly as it was. -/
theorem C9_parse_failure_unchanged (w : ExtWorld) (entry : Entry) (e : String)
    (h1 : w.dotenvErr = none) (h2 : w.firmatekaApiKey ≠ "")
    (h3 : w.requestErr = none) (h4 : w.doErr = none) (h5 : w.readErr = none)
    (h6 : w.unmarshal w.body = Except.error e) :
    ceidgProcess w entry = (entry, [], some e) := by
  simp only [ceidgProcess, h1, h3, h4, h5, h6]
  rw [if_neg h2]

/-- Witness for C9: a concrete non-parsing world returns the untouched
record with the parse error. -/
theorem C9_parse_failure_unchanged_witness :
    ceidgProcess badWorldParse emptyEntry = (emptyEntry, [], some "invalid character") := by
  exact C9_parse_failure_unchanged badWorldParse emptyEntry "invalid character" rfl
    (by decide) rfl rfl rfl rfl

/-- Claim C10: a successful fetch whose `Document` is not a parsed
document tree returns the record unchanged, no child jobs and a nil
error, whatever the body holds and whatever the external extractors
would do — so neither the regex fallback nor the identifier extraction
can influence anything. -/
theorem C10_no_document_noop (parseEmail : String → Option String)
    (findAddrs : String → List String) (entry : Entry) (resp : Response)
    (hE : resp.error = none) (hD : resp.document = none) :
    emailProcess parseEmail findAddrs entry resp = (entry, [], none) := by
  unfold emailProcess
  rw [hE, hD]

/-- Witness for C10: a response with a body full of extractable signals
but no parsed document is a complete no-op. -/
theorem C10_no_document_noop_witness :
    emailProcess wParse wFind emptyEntry c10Resp = (emptyEntry, [], none) := by
  exact C10_no_document_noop wParse wFind emptyEntry c10Resp rfl rfl
